import Mathlib

/-!
# Verification of the Image Analysis chat client

Shallow embedding of `src/apps/Image_Analysis_app.py`: the Streamlit chat
client for the image-analysis agent.  The client keeps per-browser-session
state (`user_id`, `session_id`, `messages`) and exposes two operations,
`create_session` and `send_message`.  Network effects are modelled by
passing the host's response (HTTP status code, response text, parsed JSON
events) as explicit parameters, and by recording in the result whether a
request was issued and with which payload.
-/

namespace ImageAnalysis

/-- The `APP_NAME` constant from the source. -/
def APP_NAME : String := "image_agent"

/-- The `API_BASE_URL` constant from the source. -/
def API_BASE_URL : String := "http://localhost:8000"

/-! ## Base64 encoding

Embeds Python's `base64.b64encode(...).decode()` on a byte sequence
(bytes are `Nat` values `< 256`) producing the standard RFC 4648 base64
alphabet with `=` padding, together with the standard decoder. -/

/-- The 64-character base64 alphabet. -/
def b64chars : List Char :=
  "ABCDEFGHIJKLMNOPQRSTUVWXYZabcdefghijklmnopqrstuvwxyz0123456789+/".data

/-- Character for a 6-bit group. -/
def b64char (s : Nat) : Char := b64chars.getD s ' '

/-- Inverse of `b64char` on the alphabet: position of a character. -/
def b64val (c : Char) : Nat := (b64chars.indexOf c)

/-- Standard base64 encoding of a byte list, with `=` padding. -/
def encodeB64 : List Nat → List Char
  | [] => []
  | [a] => [b64char (a / 4), b64char (a % 4 * 16), '=', '=']
  | [a, b] => [b64char (a / 4), b64char (a % 4 * 16 + b / 16),
               b64char (b % 16 * 4), '=']
  | a :: b :: c :: rest =>
      b64char (a / 4) :: b64char (a % 4 * 16 + b / 16) ::
      b64char (b % 16 * 4 + c / 64) :: b64char (c % 64) :: encodeB64 rest

/-- Standard base64 decoding back to a byte list. -/
def decodeB64 : List Char → List Nat
  | c1 :: c2 :: c3 :: c4 :: rest =>
      if c3 = '=' then
        [b64val c1 * 4 + b64val c2 / 16]
      else if c4 = '=' then
        [b64val c1 * 4 + b64val c2 / 16,
         b64val c2 % 16 * 16 + b64val c3 / 4]
      else
        (b64val c1 * 4 + b64val c2 / 16) ::
        (b64val c2 % 16 * 16 + b64val c3 / 4) ::
        (b64val c3 % 4 * 64 + b64val c4) :: decodeB64 rest
  | _ => []

/-- Base64 decoding of a Lean string. -/
def decodeB64Str (s : String) : List Nat := decodeB64 s.data

/-! ## Decimal formatting

Embeds Python's `f"session-{int(time.time())}"`: the integer is rendered
in standard decimal notation. -/

/-- Decimal digits of `n`, least significant first. -/
def toDigitsRev (n : Nat) : List Nat :=
  if h : n < 10 then [n]
  else n % 10 :: toDigitsRev (n / 10)
  termination_by n
  decreasing_by exact Nat.div_lt_self (by omega) (by omega)

/-- Character for a decimal digit. -/
def digitChar (d : Nat) : Char := Char.ofNat (48 + d)

/-- Decimal rendering of a natural number. -/
def decimalRepr (n : Nat) : String := String.mk ((toDigitsRev n).reverse.map digitChar)

/-- The session identifier generated at unix time `t`: `session-<t>`. -/
def mkSessionId (t : Nat) : String := "session-" ++ decimalRepr t

/-! ## Data model -/

/-- One entry of `st.session_state.messages`: a dict with keys `role`,
`content` and (for user turns) `image_bytes` (`None` when no image). -/
structure Message where
  role : String
  content : String
  image_bytes : Option (List Nat)
  deriving Repr, DecidableEq

/-- The client's session state: `user_id`, `session_id` (`None` until a
session is created) and the message history. -/
structure AppState where
  user_id : String
  session_id : Option String
  messages : List Message
  deriving Repr, DecidableEq

/-- The `inlineData` dict of an outbound image part. -/
structure InlineData where
  displayName : String
  data : String
  mimeType : String
  deriving Repr, DecidableEq

/-- An outbound content part: either `{"text": ...}` or
`{"inlineData": ...}`. -/
inductive Part where
  | text (t : String)
  | inline (d : InlineData)
  deriving Repr, DecidableEq

/-- The `newMessage` object of the outbound payload. -/
structure NewMessage where
  role : String
  parts : List Part
  deriving Repr, DecidableEq

/-- The JSON payload POSTed to `/run`. -/
structure Payload where
  appName : String
  userId : String
  sessionId : String
  newMessage : NewMessage
  streaming : Bool
  deriving Repr, DecidableEq

/-- A part of an inbound event's content: a dict that may carry a
`text` key. -/
structure EventPart where
  text : Option String
  deriving Repr, DecidableEq

/-- The `content` object of an inbound event: may carry a `role` key and
a `parts` key (`content.get("parts", [])` defaults to the empty list). -/
structure Content where
  role : Option String
  parts : List EventPart
  deriving Repr, DecidableEq

/-- An inbound event: `event.get("content", {})` defaults to an empty
dict, modelled as `none`. -/
structure Event where
  content : Option Content
  deriving Repr, DecidableEq

/-- Python truthiness of `st.session_state.session_id`: a non-`None`,
non-empty string. -/
def AppState.isActive (st : AppState) : Bool := st.session_id.getD "" ≠ ""

/-! ## Operations -/

/-- Result of `create_session`: the boolean return value, the client state
afterwards, and the error message surfaced via `st.error` (if any).
`create_session` always issues exactly one network call. -/
structure CreateResult where
  ok : Bool
  state : AppState
  error : Option String
  deriving Repr, DecidableEq

/-- Model of `create_session`, with the current unix time `now` and the host's
response (`status`, `respText`) passed explicitly.  Generates
`session-<now>`; on status 200 stores it and clears the history, otherwise
surfaces the host's error text and leaves the state untouched. -/
def create_session (st : AppState) (now : Nat) (status : Nat)
    (respText : String) : CreateResult :=
  let session_id := mkSessionId now
  if status = 200 then
    ⟨true, { st with session_id := some session_id, messages := [] }, none⟩
  else
    ⟨false, st, some ("Failed to create session: " ++ respText)⟩

/-- Result of `send_message`: the boolean return value, the client state
afterwards, the payload POSTed to `/run` (`none` when no network call was
made), and the error message surfaced via `st.error` (if any). -/
structure SendResult where
  ok : Bool
  state : AppState
  request : Option Payload
  error : Option String
  deriving Repr, DecidableEq

/-- The `for event in events` loop of `send_message`: the final value of
`assistant_message`.  Each event whose content has role `"model"` and a
non-empty parts list, and whose first part carries a `text` key,
overwrites the accumulator (there is no `break`). -/
def extractAssistant (events : List Event) : Option String :=
  events.foldl (fun acc event =>
    match event.content with
    | none => acc
    | some content =>
      match content.parts with
      | [] => acc
      | p :: _ =>
        if content.role = some "model" then
          match p.text with
          | some t => some t
          | none => acc
        else acc) none

/-- Model of `send_message`, with the uploaded file's bytes passed as
`ip_file : Option (List Nat)` and the host's response (`status`,
`respText`, parsed JSON `events`) passed explicitly. -/
def send_message (st : AppState) (message : String)
    (ip_file : Option (List Nat)) (status : Nat) (respText : String)
    (events : List Event) : SendResult :=
  if ¬ st.isActive then
    ⟨false, st, none, some "Please create a session before sending messages."⟩
  else
    let image_bytes : Option (List Nat) := ip_file
    let baseParts : List Part := [Part.text message]
    let parts : List Part :=
      match ip_file with
      | none => baseParts
      | some bytes =>
          baseParts ++
            [Part.inline ⟨"uploaded.jpg", String.mk (encodeB64 bytes),
                          "image/jpeg"⟩]
    let payload : Payload :=
      ⟨APP_NAME, st.user_id, st.session_id.getD "", ⟨"user", parts⟩, false⟩
    let st1 : AppState :=
      { st with messages := st.messages ++ [⟨"user", message, image_bytes⟩] }
    if status ≠ 200 then
      ⟨false, st1, some payload, some ("Agent Error: " ++ respText)⟩
    else
      match extractAssistant events with
      | some t =>
          if t ≠ "" then
            ⟨true,
             { st1 with messages := st1.messages ++ [⟨"assistant", t, none⟩] },
             some payload, none⟩
          else ⟨true, st1, some payload, none⟩
      | none => ⟨true, st1, some payload, none⟩

/-! ## Operation sequences (for the history invariants) -/

/-- One UI-triggered action together with the host's response to it. -/
inductive Op where
  | createSession (now : Nat) (status : Nat) (respText : String)
  | sendTurn (message : String) (ip_file : Option (List Nat))
      (status : Nat) (respText : String) (events : List Event)
  deriving Repr

/-- The state transition of a single action. -/
def stepOp (st : AppState) : Op → AppState
  | .createSession now status respText =>
      (create_session st now status respText).state
  | .sendTurn message ip_file status respText events =>
      (send_message st message ip_file status respText events).state

/-- Running a sequence of actions from a state. -/
def runOps (st : AppState) (ops : List Op) : AppState := ops.foldl stepOp st

/-- Whether an action is a successful "new session" action. -/
def isNewSession : Op → Bool
  | .createSession _ status _ => status = 200
  | .sendTurn _ _ _ _ _ => false

/-- The unix times of the successful `createSession` actions, in order. -/
def createTimes (ops : List Op) : List Nat :=
  ops.filterMap fun op =>
    match op with
    | .createSession now status _ => if status = 200 then some now else none
    | .sendTurn _ _ _ _ _ => none

/-- The session identifiers assigned over a run, in order. -/
def assignedIds (ops : List Op) : List String := (createTimes ops).map mkSessionId

/-! ## Specification-side definitions -/

/-- The text surfaced by a single event, if any: present exactly when the
event's role is `"model"`, its parts list is non-empty and its first part
carries a text key. -/
def modelTextOf (event : Event) : Option String :=
  match event.content with
  | none => none
  | some content =>
    match content.parts with
    | [] => none
    | p :: _ => if content.role = some "model" then p.text else none

/-- The spec's description of reply extraction, with the claim's "FIRST"
replaced by what the loop actually computes: the text of the first part of
the LAST event whose role is `"model"`, whose parts list is non-empty and
whose first part carries a text key. -/
def lastModelText (events : List Event) : Option String :=
  events.reverse.findSome? modelTextOf

/-- The claim's (and spec's) description of reply extraction: scan for
the FIRST event whose role is `"model"` and whose parts list is
non-empty; if that event's first part contains text, that text is the
reply. -/
def firstModelText (events : List Event) : Option String :=
  match events.find? (fun event =>
      match event.content with
      | none => false
      | some content => content.role = some "model" && !content.parts.isEmpty)
    with
  | none => none
  | some event =>
    match event.content with
    | none => none
    | some content =>
      match content.parts with
      | [] => none
      | p :: _ => p.text

/-! ## Base64 lemmas -/

/-- Decoding a character: `b64val` inverts `b64char` on six-bit values. -/
theorem b64val_b64char : ∀ s < 64, b64val (b64char s) = s := by decide

/-- No alphabet character is the padding character. -/
theorem b64char_ne_pad : ∀ s < 64, b64char s ≠ '=' := by decide

/-- Decoding inverts encoding on byte lists. -/
theorem decodeB64_encodeB64 (bs : List Nat) (h : ∀ b ∈ bs, b < 256) :
    decodeB64 (encodeB64 bs) = bs := by
  induction bs using encodeB64.induct with
  | case1 => rfl
  | case2 a =>
    have ha : a < 256 := h a (by simp)
    rw [encodeB64, decodeB64, if_pos rfl]
    rw [b64val_b64char _ (by omega), b64val_b64char _ (by omega)]
    simp only [List.cons.injEq, and_true]
    omega
  | case3 a b =>
    have ha : a < 256 := h a (by simp)
    have hb : b < 256 := h b (by simp)
    rw [encodeB64, decodeB64,
      if_neg (b64char_ne_pad _ (by omega)), if_pos rfl]
    rw [b64val_b64char _ (by omega), b64val_b64char _ (by omega),
      b64val_b64char _ (by omega)]
    simp only [List.cons.injEq, and_true]
    omega
  | case4 a b c rest ih =>
    have ha : a < 256 := h a (by simp)
    have hb : b < 256 := h b (by simp)
    have hc : c < 256 := h c (by simp)
    rw [encodeB64, decodeB64,
      if_neg (b64char_ne_pad _ (by omega)),
      if_neg (b64char_ne_pad _ (by omega))]
    rw [b64val_b64char _ (by omega), b64val_b64char _ (by omega),
      b64val_b64char _ (by omega), b64val_b64char _ (by omega)]
    rw [ih (fun x hx => h x (by simp [hx]))]
    simp only [List.cons.injEq, and_true]
    refine ⟨by omega, by omega, by omega⟩

/-! ## Decimal representation lemmas -/

/-- Value of a digit list, least significant first. -/
def ofDigitsRev : List Nat → Nat
  | [] => 0
  | d :: rest => d + 10 * ofDigitsRev rest

/-- Value recovery: `ofDigitsRev` inverts `toDigitsRev`. -/
theorem ofDigitsRev_toDigitsRev (n : Nat) :
    ofDigitsRev (toDigitsRev n) = n := by
  induction n using toDigitsRev.induct with
  | case1 n h => rw [toDigitsRev, dif_pos h, ofDigitsRev, ofDigitsRev]; omega
  | case2 n h ih =>
    rw [toDigitsRev, dif_neg h, ofDigitsRev, ih]
    omega

/-- Every entry of `toDigitsRev n` is a decimal digit. -/
theorem toDigitsRev_lt (n : Nat) : ∀ d ∈ toDigitsRev n, d < 10 := by
  induction n using toDigitsRev.induct with
  | case1 n h => intro d hd; rw [toDigitsRev, dif_pos h] at hd; simp at hd; omega
  | case2 n h ih =>
    intro d hd
    rw [toDigitsRev, dif_neg h] at hd
    rcases List.mem_cons.mp hd with h1 | h2
    · omega
    · exact ih d h2

/-- Recover a digit from its character. -/
def charToDigit (c : Char) : Nat := c.toNat - 48

/-- Digit recovery: `charToDigit` inverts `digitChar` on decimal digits. -/
theorem charToDigit_digitChar : ∀ d < 10, charToDigit (digitChar d) = d := by
  decide

/-- Mapping digits to characters is invertible on digit lists. -/
theorem map_charToDigit_digitChar (l : List Nat) (h : ∀ d ∈ l, d < 10) :
    (l.map digitChar).map charToDigit = l := by
  induction l with
  | nil => rfl
  | cons d rest ih =>
    simp only [List.map_cons, List.cons.injEq]
    exact ⟨charToDigit_digitChar d (h d (by simp)),
           ih fun x hx => h x (by simp [hx])⟩

/-- Injectivity of `decimalRepr`. -/
theorem decimalRepr_injective {t1 t2 : Nat}
    (h : decimalRepr t1 = decimalRepr t2) : t1 = t2 := by
  have hdata : ((toDigitsRev t1).reverse.map digitChar) =
      ((toDigitsRev t2).reverse.map digitChar) := congrArg String.data h
  have hrev : (toDigitsRev t1).reverse = (toDigitsRev t2).reverse := by
    have := congrArg (List.map charToDigit) hdata
    rwa [map_charToDigit_digitChar _ (fun d hd =>
            toDigitsRev_lt t1 d (List.mem_reverse.mp hd)),
         map_charToDigit_digitChar _ (fun d hd =>
            toDigitsRev_lt t2 d (List.mem_reverse.mp hd))] at this
  have hdig : toDigitsRev t1 = toDigitsRev t2 :=
    List.reverse_injective hrev
  calc t1 = ofDigitsRev (toDigitsRev t1) := (ofDigitsRev_toDigitsRev t1).symm
    _ = ofDigitsRev (toDigitsRev t2) := congrArg ofDigitsRev hdig
    _ = t2 := ofDigitsRev_toDigitsRev t2

/-- Session identifiers are injective in the generation time. -/
theorem mkSessionId_injective {t1 t2 : Nat}
    (h : mkSessionId t1 = mkSessionId t2) : t1 = t2 := by
  apply decimalRepr_injective
  have hdata := congrArg String.data h
  simp only [mkSessionId, String.data_append] at hdata
  have := List.append_cancel_left hdata
  exact String.ext this

/-- A session identifier is never the empty string. -/
theorem mkSessionId_ne_empty (t : Nat) : mkSessionId t ≠ "" := by
  intro h
  have hdata := congrArg String.data h
  simp [mkSessionId, String.data_append] at hdata

/-! ## Extraction-loop lemmas -/

/-- Left-biased choice on options (explicit, to state fold lemmas). -/
def orElseO {α : Type} (a b : Option α) : Option α :=
  match a with
  | some t => some t
  | none => b

theorem orElseO_none {α : Type} (a : Option α) : orElseO a none = a := by
  cases a <;> rfl

theorem orElseO_assoc {α : Type} (a b c : Option α) :
    orElseO (orElseO a b) c = orElseO a (orElseO b c) := by
  cases a <;> rfl

theorem findSome?_append {α β : Type} (f : α → Option β) (l1 l2 : List α) :
    (l1 ++ l2).findSome? f = orElseO (l1.findSome? f) (l2.findSome? f) := by
  induction l1 with
  | nil => rfl
  | cons a l ih =>
    simp only [List.cons_append, List.findSome?_cons]
    cases f a <;> simp [orElseO, ih]

/-- One step of the `for event in events` loop updates the accumulator to
the event's surfaced text when present, else keeps it. -/
theorem extract_step_eq (acc : Option String) (event : Event) :
    (match event.content with
      | none => acc
      | some content =>
        match content.parts with
        | [] => acc
        | p :: _ =>
          if content.role = some "model" then
            match p.text with
            | some t => some t
            | none => acc
          else acc) = orElseO (modelTextOf event) acc := by
  rcases event with ⟨content⟩
  cases content with
  | none => rfl
  | some c =>
    rcases c with ⟨role, parts⟩
    cases parts with
    | nil => rfl
    | cons p rest =>
      by_cases hrole : role = some "model"
      · simp only [modelTextOf, if_pos hrole]
        cases p.text <;> simp [hrole, orElseO]
      · simp only [modelTextOf, if_neg hrole]
        simp [hrole, orElseO]

/-- The loop's fold computes the last surfaced text, with the initial
accumulator as fallback. -/
theorem extract_foldl_eq (events : List Event) (acc : Option String) :
    events.foldl (fun acc event =>
      match event.content with
      | none => acc
      | some content =>
        match content.parts with
        | [] => acc
        | p :: _ =>
          if content.role = some "model" then
            match p.text with
            | some t => some t
            | none => acc
          else acc) acc =
      orElseO (events.reverse.findSome? modelTextOf) acc := by
  induction events generalizing acc with
  | nil => rfl
  | cons e es ih =>
    rw [List.foldl_cons, ih, extract_step_eq, List.reverse_cons,
      findSome?_append]
    rw [orElseO_assoc]
    congr 1
    simp only [List.findSome?_cons]
    cases modelTextOf e <;> simp [orElseO, List.findSome?]

/-- The loop computes the text of the last matching model event. -/
theorem extractAssistant_eq_lastModelText (events : List Event) :
    extractAssistant events = lastModelText events := by
  rw [extractAssistant, lastModelText, extract_foldl_eq, orElseO_none]

/-! ## Shape lemmas for `send_message` -/

/-- The outbound parts list built by `send_message` for a given optional
image. -/
def builtParts (msg : String) (img : Option (List Nat)) : List Part :=
  match img with
  | none => [Part.text msg]
  | some bytes =>
      [Part.text msg,
       Part.inline ⟨"uploaded.jpg", String.mk (encodeB64 bytes), "image/jpeg"⟩]

/-- The payload built by `send_message`. -/
def builtPayload (st : AppState) (msg : String) (img : Option (List Nat)) :
    Payload :=
  ⟨APP_NAME, st.user_id, st.session_id.getD "", ⟨"user", builtParts msg img⟩,
   false⟩

/-- With an active session, `send_message` optimistically appends the user
turn, issues the request, and on a 200 status appends the last surfaced
model text when it is non-empty. -/
theorem send_message_active_eq (st : AppState) (msg : String)
    (img : Option (List Nat)) (status : Nat) (respText : String)
    (events : List Event) (hactive : st.isActive = true) :
    send_message st msg img status respText events =
      (let st1 : AppState :=
        { st with messages := st.messages ++ [⟨"user", msg, img⟩] }
      if status ≠ 200 then
        ⟨false, st1, some (builtPayload st msg img),
         some ("Agent Error: " ++ respText)⟩
      else
        match lastModelText events with
        | some t =>
            if t ≠ "" then
              ⟨true,
               { st1 with
                  messages := st1.messages ++ [⟨"assistant", t, none⟩] },
               some (builtPayload st msg img), none⟩
            else ⟨true, st1, some (builtPayload st msg img), none⟩
        | none => ⟨true, st1, some (builtPayload st msg img), none⟩) := by
  unfold send_message
  rw [extractAssistant_eq_lastModelText]
  rw [if_neg (by simp [hactive])]
  cases img <;> rfl

/-- With an active session, the request is always issued and carries the
built payload. -/
theorem send_message_request_eq (st : AppState) (msg : String)
    (img : Option (List Nat)) (status : Nat) (respText : String)
    (events : List Event) (hactive : st.isActive = true) :
    (send_message st msg img status respText events).request =
      some (builtPayload st msg img) := by
  rw [send_message_active_eq st msg img status respText events hactive]
  dsimp only
  split
  · rfl
  · split
    · split <;> rfl
    · rfl

/-! ## Claim theorems -/

/-- C3: a SendTurn with no active session (sessionId is null) performs
zero network calls, leaves the history unchanged (the whole state is
untouched), shows a user-visible error, and returns failure. -/
theorem sendTurn_no_session (st : AppState) (msg : String)
    (img : Option (List Nat)) (status : Nat) (respText : String)
    (events : List Event) (h : st.session_id = none) :
    send_message st msg img status respText events =
      ⟨false, st, none,
       some "Please create a session before sending messages."⟩ := by
  unfold send_message
  rw [if_pos (by simp [AppState.isActive, h])]

/-- Witness for C3 at a concrete sessionless state. -/
theorem sendTurn_no_session_witness :
    send_message ⟨"user-1", none, [⟨"user", "old", none⟩]⟩ "hi" none 200 "" [] =
      ⟨false, ⟨"user-1", none, [⟨"user", "old", none⟩]⟩, none,
       some "Please create a session before sending messages."⟩ :=
  sendTurn_no_session ⟨"user-1", none, [⟨"user", "old", none⟩]⟩ "hi" none 200
    "" [] (by decide)

/-- C6: a SendTurn with an active session and no image builds a payload
whose parts list is exactly the one text part carrying the user's
message, and whose streaming flag is false. -/
theorem sendTurn_text_only_payload (st : AppState) (msg : String)
    (status : Nat) (respText : String) (events : List Event)
    (hactive : st.isActive = true) :
    (send_message st msg none status respText events).request =
      some (builtPayload st msg none) ∧
    (builtPayload st msg none).newMessage.parts = [Part.text msg] ∧
    (builtPayload st msg none).newMessage.parts.length = 1 ∧
    (builtPayload st msg none).streaming = false :=
  ⟨send_message_request_eq st msg none status respText events hactive,
   rfl, rfl, rfl⟩

/-- Witness for C6 at a concrete active state. -/
theorem sendTurn_text_only_payload_witness :
    (send_message ⟨"u", some "s", []⟩ "ask" none 200 "" []).request =
      some (builtPayload ⟨"u", some "s", []⟩ "ask" none) ∧
    (builtPayload ⟨"u", some "s", []⟩ "ask" none).newMessage.parts =
      [Part.text "ask"] ∧
    (builtPayload ⟨"u", some "s", []⟩ "ask" none).newMessage.parts.length = 1 ∧
    (builtPayload ⟨"u", some "s", []⟩ "ask" none).streaming = false :=
  sendTurn_text_only_payload ⟨"u", some "s", []⟩ "ask" 200 "" [] (by decide)

/-- C7: a CreateSession call that fails (non-200 status) leaves the
client state exactly as it was — whatever that state is, including one
with an active session — returns failure, and surfaces the host's error
text. -/
theorem createSession_failure_preserves_state (st : AppState) (now : Nat)
    (status : Nat) (respText : String) (h : status ≠ 200) :
    create_session st now status respText =
      ⟨false, st, some ("Failed to create session: " ++ respText)⟩ := by
  unfold create_session
  rw [if_neg h]

/-- Witness for C7 at a concrete state with an active session. -/
theorem createSession_failure_preserves_state_witness :
    create_session ⟨"u", some "s-1", [⟨"user", "m", none⟩]⟩ 7 500 "boom" =
      ⟨false, ⟨"u", some "s-1", [⟨"user", "m", none⟩]⟩,
       some ("Failed to create session: " ++ "boom")⟩ :=
  createSession_failure_preserves_state ⟨"u", some "s-1", [⟨"user", "m", none⟩]⟩
    7 500 "boom" (by decide)

/-- C10: the boolean result of a SendTurn is true exactly when an active
session exists and the host returns HTTP status 200 — independently of
whether any assistant turn was extracted and appended. -/
theorem sendTurn_ok_iff (st : AppState) (msg : String)
    (img : Option (List Nat)) (status : Nat) (respText : String)
    (events : List Event) :
    (send_message st msg img status respText events).ok =
      (st.isActive && status == 200) := by
  by_cases hactive : st.isActive = true
  · rw [send_message_active_eq st msg img status respText events hactive,
      hactive]
    dsimp only
    by_cases hs : status = 200
    · subst hs
      rw [if_neg (by simp)]
      cases lastModelText events with
      | none => rfl
      | some t =>
        dsimp only
        split <;> rfl
    · rw [if_pos hs]
      simp [hs]
  · have hfalse : st.isActive = false := by
      revert hactive; cases st.isActive <;> simp
    unfold send_message
    rw [if_pos (by simp [hfalse])]
    rw [hfalse]
    rfl

/-- C2: a SendTurn with an active session always issues the network call,
the user's turn (text and raw image bytes) is in history immediately
after the optimistic append — it stays there in every outcome — no
assistant turn is appended on a non-success status, and history grows by
at most 2 turns. -/
theorem sendTurn_optimistic_append (st : AppState) (msg : String)
    (img : Option (List Nat)) (status : Nat) (respText : String)
    (events : List Event) (hactive : st.isActive = true) :
    (send_message st msg img status respText events).request.isSome = true ∧
    ∃ rest : List Message,
      (send_message st msg img status respText events).state.messages =
        st.messages ++ ⟨"user", msg, img⟩ :: rest ∧
      rest.length ≤ 1 ∧ (status ≠ 200 → rest = []) := by
  refine ⟨by
    rw [send_message_request_eq st msg img status respText events hactive]
    rfl, ?_⟩
  rw [send_message_active_eq st msg img status respText events hactive]
  dsimp only
  by_cases hs : status = 200
  · subst hs
    rw [if_neg (by simp)]
    cases h : lastModelText events with
    | none => exact ⟨[], by simp, by simp, fun hc => absurd rfl hc⟩
    | some t =>
      dsimp only
      by_cases ht : t ≠ ""
      · rw [if_pos ht]
        exact ⟨[⟨"assistant", t, none⟩], by simp, by simp,
          fun hc => absurd rfl hc⟩
      · rw [if_neg ht]
        exact ⟨[], by simp, by simp, fun hc => absurd rfl hc⟩
  · rw [if_pos hs]
    exact ⟨[], by simp, by simp, fun _ => rfl⟩

/-- Witness for C2 at a concrete active state and a failing status. -/
theorem sendTurn_optimistic_append_witness :
    (send_message ⟨"u", some "s", []⟩ "q" none 500 "err" []).request.isSome
      = true ∧
    ∃ rest : List Message,
      (send_message ⟨"u", some "s", []⟩ "q" none 500 "err" []).state.messages =
        ([] : List Message) ++ ⟨"user", "q", none⟩ :: rest ∧
      rest.length ≤ 1 ∧ ((500 : Nat) ≠ 200 → rest = []) :=
  sendTurn_optimistic_append ⟨"u", some "s", []⟩ "q" none 500 "err" []
    (by decide)

/-- C9: when the host answers a SendTurn with a non-success status, the
optimistically appended user turn stays: history afterwards is exactly
the prior history plus that one user turn, and the call reports
failure. -/
theorem sendTurn_failure_keeps_optimistic_append (st : AppState)
    (msg : String) (img : Option (List Nat)) (status : Nat)
    (respText : String) (events : List Event)
    (hactive : st.isActive = true) (hs : status ≠ 200) :
    (send_message st msg img status respText events).state.messages =
      st.messages ++ [⟨"user", msg, img⟩] ∧
    (send_message st msg img status respText events).ok = false := by
  rw [send_message_active_eq st msg img status respText events hactive]
  dsimp only
  rw [if_pos hs]
  exact ⟨rfl, rfl⟩

/-- Witness for C9 at a concrete active state and status 500. -/
theorem sendTurn_failure_keeps_optimistic_append_witness :
    (send_message ⟨"u", some "s", [⟨"user", "m0", none⟩]⟩ "m1" none 500 "err"
        []).state.messages =
      [⟨"user", "m0", none⟩] ++ [⟨"user", "m1", none⟩] ∧
    (send_message ⟨"u", some "s", [⟨"user", "m0", none⟩]⟩ "m1" none 500 "err"
        []).ok = false :=
  sendTurn_failure_keeps_optimistic_append
    ⟨"u", some "s", [⟨"user", "m0", none⟩]⟩ "m1" none 500 "err" []
    (by decide) (by decide)

/-- C5: a SendTurn with an active session and an image builds a payload
whose parts list has exactly two elements, the second an inline-data
part with display name `uploaded.jpg`, MIME type `image/jpeg` (the model
carries no record of the actual uploaded type), and base64 data that
decodes back to exactly the uploaded bytes. -/
theorem sendTurn_image_payload_roundtrip (st : AppState) (msg : String)
    (bytes : List Nat) (status : Nat) (respText : String)
    (events : List Event) (hactive : st.isActive = true)
    (hbytes : ∀ b ∈ bytes, b < 256) :
    (send_message st msg (some bytes) status respText events).request =
      some (builtPayload st msg (some bytes)) ∧
    (builtPayload st msg (some bytes)).newMessage.parts =
      [Part.text msg,
       Part.inline ⟨"uploaded.jpg", String.mk (encodeB64 bytes),
                    "image/jpeg"⟩] ∧
    (builtPayload st msg (some bytes)).newMessage.parts.length = 2 ∧
    decodeB64Str (String.mk (encodeB64 bytes)) = bytes := by
  refine ⟨send_message_request_eq st msg (some bytes) status respText events
    hactive, rfl, rfl, ?_⟩
  exact decodeB64_encodeB64 bytes hbytes

/-- Witness for C5 at concrete bytes covering padding and extremes. -/
theorem sendTurn_image_payload_roundtrip_witness :
    (send_message ⟨"u", some "s", []⟩ "what is this" (some [0, 77, 255, 10])
        200 "" []).request =
      some (builtPayload ⟨"u", some "s", []⟩ "what is this"
        (some [0, 77, 255, 10])) ∧
    (builtPayload ⟨"u", some "s", []⟩ "what is this"
        (some [0, 77, 255, 10])).newMessage.parts =
      [Part.text "what is this",
       Part.inline ⟨"uploaded.jpg", String.mk (encodeB64 [0, 77, 255, 10]),
                    "image/jpeg"⟩] ∧
    (builtPayload ⟨"u", some "s", []⟩ "what is this"
        (some [0, 77, 255, 10])).newMessage.parts.length = 2 ∧
    decodeB64Str (String.mk (encodeB64 [0, 77, 255, 10])) = [0, 77, 255, 10] :=
  sendTurn_image_payload_roundtrip ⟨"u", some "s", []⟩ "what is this"
    [0, 77, 255, 10] 200 "" [] (by decide) (by decide)

/-- C1 counterexample: for the response
`[{role:"model", parts:[{text:"a"}]}, {role:"model", parts:[{text:"b"}]}]`
the first model-role event with non-empty parts carries `"a"`, but the
loop keeps overwriting (there is no break), so the appended assistant
turn's content is `"b"`, not `"a"`; moreover an extracted empty text is
not appended at all (Python truthiness of the accumulator). -/
theorem sendTurn_first_model_event_refuted :
    firstModelText
        [⟨some ⟨some "model", [⟨some "a"⟩]⟩⟩,
         ⟨some ⟨some "model", [⟨some "b"⟩]⟩⟩] = some "a" ∧
    (send_message ⟨"user-1", some "session-1", []⟩ "hi" none 200 ""
        [⟨some ⟨some "model", [⟨some "a"⟩]⟩⟩,
         ⟨some ⟨some "model", [⟨some "b"⟩]⟩⟩]).state.messages ≠
      [⟨"user", "hi", none⟩, ⟨"assistant", "a", none⟩] ∧
    (send_message ⟨"user-1", some "session-1", []⟩ "hi" none 200 ""
        [⟨some ⟨some "model", [⟨some "a"⟩]⟩⟩,
         ⟨some ⟨some "model", [⟨some "b"⟩]⟩⟩]).state.messages =
      [⟨"user", "hi", none⟩, ⟨"assistant", "b", none⟩] ∧
    (send_message ⟨"user-1", some "session-1", []⟩ "hi" none 200 ""
        [⟨some ⟨some "model", [⟨some ""⟩]⟩⟩]).state.messages =
      [⟨"user", "hi", none⟩] := by
  decide

/-- C1 (amended): on a successful SendTurn whose response is a list of
events, the assistant reply appended to history is the text of the first
part of the LAST event whose role is `"model"`, whose parts list is
non-empty and whose first part carries text — provided that text is
non-empty. -/
theorem sendTurn_appends_last_model_text (st : AppState) (msg : String)
    (img : Option (List Nat)) (respText : String) (events : List Event)
    (t : String) (hactive : st.isActive = true)
    (ht : lastModelText events = some t) (hne : t ≠ "") :
    (send_message st msg img 200 respText events).state.messages =
      st.messages ++ [⟨"user", msg, img⟩, ⟨"assistant", t, none⟩] := by
  rw [send_message_active_eq st msg img 200 respText events hactive]
  dsimp only
  rw [if_neg (by simp), ht]
  dsimp only
  rw [if_pos hne]
  simp

/-- Witness for C1's amended statement at the spec's mocked response
`[{content:{role:"model", parts:[{text:"hello"}]}}]`. -/
theorem sendTurn_appends_last_model_text_witness :
    (send_message ⟨"u", some "s", []⟩ "hi" none 200 ""
        [⟨some ⟨some "model", [⟨some "hello"⟩]⟩⟩]).state.messages =
      [⟨"user", "hi", none⟩, ⟨"assistant", "hello", none⟩] := by
  have h := sendTurn_appends_last_model_text ⟨"u", some "s", []⟩ "hi" none ""
    [⟨some ⟨some "model", [⟨some "hello"⟩]⟩⟩] "hello" (by decide) (by decide)
    (by decide)
  simpa using h

/-- C4: a CreateSession call that succeeds stores the session identifier
`session-<current unix time>`, which is non-empty; the history is empty
immediately after; and under clock progression the new identifier
differs from the previous one. -/
theorem createSession_success (st : AppState) (now t0 : Nat)
    (respText : String) (hprev : st.session_id = some (mkSessionId t0))
    (hclock : t0 ≠ now) :
    (create_session st now 200 respText).state.session_id =
      some ("session-" ++ decimalRepr now) ∧
    "session-" ++ decimalRepr now ≠ "" ∧
    (create_session st now 200 respText).state.messages = [] ∧
    (create_session st now 200 respText).state.session_id ≠
      st.session_id ∧
    (create_session st now 200 respText).ok = true := by
  refine ⟨rfl, mkSessionId_ne_empty now, rfl, ?_, rfl⟩
  rw [hprev]
  intro hEq
  have h2 : some (mkSessionId now) = some (mkSessionId t0) := hEq
  exact hclock (mkSessionId_injective (Option.some.inj h2)).symm

/-- Witness for C4: a new session at time 101 after one created at
time 100. -/
theorem createSession_success_witness :
    (create_session ⟨"u", some (mkSessionId 100), [⟨"user", "m", none⟩]⟩ 101
        200 "").state.session_id =
      some ("session-" ++ decimalRepr 101) ∧
    "session-" ++ decimalRepr 101 ≠ "" ∧
    (create_session ⟨"u", some (mkSessionId 100), [⟨"user", "m", none⟩]⟩ 101
        200 "").state.messages = [] ∧
    (create_session ⟨"u", some (mkSessionId 100), [⟨"user", "m", none⟩]⟩ 101
        200 "").state.session_id ≠
      (⟨"u", some (mkSessionId 100), [⟨"user", "m", none⟩]⟩ : AppState).session_id ∧
    (create_session ⟨"u", some (mkSessionId 100), [⟨"user", "m", none⟩]⟩ 101
        200 "").ok = true :=
  createSession_success ⟨"u", some (mkSessionId 100), [⟨"user", "m", none⟩]⟩
    101 100 "" rfl (by decide)

/-! ## History invariants over operation sequences (C8 helpers) -/

/-- Every action other than a successful "new session" only extends the
history. -/
theorem stepOp_extends (st : AppState) (op : Op)
    (h : isNewSession op = false) :
    ∃ rest, (stepOp st op).messages = st.messages ++ rest := by
  cases op with
  | createSession now status respText =>
    have hs : status ≠ 200 := by simpa [isNewSession] using h
    refine ⟨[], ?_⟩
    rw [stepOp]
    unfold create_session
    rw [if_neg hs]
    simp
  | sendTurn msg img status respText events =>
    by_cases hactive : st.isActive = true
    · rw [stepOp,
        send_message_active_eq st msg img status respText events hactive]
      dsimp only
      by_cases hs : status = 200
      · subst hs
        rw [if_neg (by simp)]
        cases lastModelText events with
        | none => exact ⟨[⟨"user", msg, img⟩], rfl⟩
        | some t =>
          dsimp only
          by_cases ht : t ≠ ""
          · rw [if_pos ht]
            exact ⟨[⟨"user", msg, img⟩, ⟨"assistant", t, none⟩], by simp⟩
          · rw [if_neg ht]
            exact ⟨[⟨"user", msg, img⟩], rfl⟩
      · rw [if_pos hs]
        exact ⟨[⟨"user", msg, img⟩], rfl⟩
    · refine ⟨[], ?_⟩
      rw [stepOp]
      unfold send_message
      rw [if_pos (by simpa using hactive)]
      simp

/-- A run containing no successful "new session" action only extends the
history. -/
theorem runOps_extends (ops : List Op) :
    ∀ st : AppState, (∀ op ∈ ops, isNewSession op = false) →
      ∃ rest, (runOps st ops).messages = st.messages ++ rest := by
  induction ops with
  | nil => exact fun st _ => ⟨[], by simp [runOps]⟩
  | cons op ops ih =>
    intro st hall
    obtain ⟨r1, hr1⟩ := stepOp_extends st op (hall op (by simp))
    obtain ⟨r2, hr2⟩ := ih (stepOp st op) (fun o ho => hall o (by simp [ho]))
    refine ⟨r1 ++ r2, ?_⟩
    have hstep : runOps st (op :: ops) = runOps (stepOp st op) ops := rfl
    rw [hstep, hr2, hr1, List.append_assoc]

/-- C8: between successful CreateSession calls the history is append-only
(a run free of successful "new session" actions only ever extends the
turn list); a successful CreateSession discards all prior turns; and
under clock progression the session identifiers assigned by successful
creations are pairwise distinct, so a replaced sessionId is never
reused. -/
theorem history_invariants (st : AppState) (ops : List Op)
    (hmono : (createTimes ops).Pairwise (· < ·)) :
    ((∀ op ∈ ops, isNewSession op = false) →
      ∃ rest, (runOps st ops).messages = st.messages ++ rest) ∧
    (∀ op ∈ ops, isNewSession op = true → (stepOp st op).messages = []) ∧
    (assignedIds ops).Pairwise (· ≠ ·) := by
  refine ⟨runOps_extends ops st, ?_, ?_⟩
  · intro op _ hnew
    cases op with
    | createSession now status respText =>
      have hs : status = 200 := by simpa [isNewSession] using hnew
      subst hs
      rfl
    | sendTurn msg img status respText events => simp [isNewSession] at hnew
  · rw [assignedIds]
    rw [List.pairwise_map]
    refine hmono.imp ?_
    intro a b hab hEq
    exact absurd (mkSessionId_injective hEq) (by omega)

/-- Witness for C8 on a concrete run: create, send, create again. -/
theorem history_invariants_witness :
    ((∀ op ∈ ([Op.createSession 1 200 "",
               Op.sendTurn "hi" none 200 "" [],
               Op.createSession 2 200 ""] : List Op),
        isNewSession op = false) →
      ∃ rest, (runOps ⟨"u", none, []⟩
          [Op.createSession 1 200 "",
           Op.sendTurn "hi" none 200 "" [],
           Op.createSession 2 200 ""]).messages =
        ([] : List Message) ++ rest) ∧
    (∀ op ∈ ([Op.createSession 1 200 "",
              Op.sendTurn "hi" none 200 "" [],
              Op.createSession 2 200 ""] : List Op),
        isNewSession op = true →
      (stepOp ⟨"u", none, []⟩ op).messages = []) ∧
    (assignedIds
        [Op.createSession 1 200 "",
         Op.sendTurn "hi" none 200 "" [],
         Op.createSession 2 200 ""]).Pairwise (· ≠ ·) :=
  history_invariants ⟨"u", none, []⟩
    [Op.createSession 1 200 "", Op.sendTurn "hi" none 200 "" [],
     Op.createSession 2 200 ""]
    (by simp [createTimes])

end ImageAnalysis
